import Mathlib

/-!
Verification of the Chain of Responsibility demo
(`src/chain-of-responsibility/main.py`).

The Python program defines an abstract `Handler` contract, an
`AbstractHandler` base class holding an optional `_next_handler` field,
and three concrete handlers (`MonkeyHandler`, `SquirrelHandler`,
`DogHandler`), each matching exactly one trigger string and otherwise
delegating to the base-class behaviour:

    def handle(self, request):            # AbstractHandler
        if self._next_handler:
            return self._next_handler.handle(request)
        return None

    def handle(self, request):            # e.g. MonkeyHandler
        if request == "Banana":
            return f"Monkey: I'll eat the {request}"
        else:
            return super().handle(request)

We embed the three concrete handler classes as a kind tag plus the two
configuration tables `trigger` and `handlerName`, and a handler object
(a node of the linked chain) as an inductive: `last k` is a handler with
`_next_handler = None`, `link k nx` is a handler whose `_next_handler`
points to `nx`.  Since every value of this type is a finite acyclic chain,
quantifying over `Handler` quantifies over exactly the chains the builder
can construct.  Requests are Python values: the program compares the
request against a string with `==`, which in Python is `False` (and never
raises) when the request is not a string, so we model requests by a small
sum of Python values rather than by `String` alone.
-/

inductive HandlerKind : Type where
  | monkey : HandlerKind
  | squirrel : HandlerKind
  | dog : HandlerKind
deriving DecidableEq, Repr

/-- The trigger value each concrete handler class compares the request to
(`"Banana"` in `MonkeyHandler.handle`, etc.). -/
def trigger : HandlerKind → String
  | .monkey => "Banana"
  | .squirrel => "Nut"
  | .dog => "MeatBall"

/-- The name each concrete handler interpolates into its acknowledgment
string (`f"Monkey: I'll eat the {request}"`, etc.). -/
def handlerName : HandlerKind → String
  | .monkey => "Monkey"
  | .squirrel => "Squirrel"
  | .dog => "Dog"

/-- A Python value passed as the `request` argument.  The program only
ever reads it and compares it with `==` against a string literal; for
non-string values that comparison is `False` in Python. -/
inductive PyVal : Type where
  | str : String → PyVal
  | pyNone : PyVal
  | int : Int → PyVal
deriving DecidableEq, Repr

/-- Python `str()` of a value, as used by f-string interpolation. -/
def pyStr : PyVal → String
  | .str s => s
  | .pyNone => "None"
  | .int n => toString n

/-- The acknowledgment a concrete handler of kind `k` builds on a match:
`f"{name}: I'll eat the {request}"`. -/
def ackString (k : HandlerKind) (req : PyVal) : String :=
  handlerName k ++ ": I'll eat the " ++ pyStr req

/-- A handler object.  `last k` has `_next_handler = None`; `link k nx`
has `_next_handler` pointing at `nx`.  Every value is a finite acyclic
chain, matching the chains the demo's builder constructs. -/
inductive Handler : Type where
  | last : HandlerKind → Handler
  | link : HandlerKind → Handler → Handler
deriving DecidableEq, Repr

/-- The concrete class of a handler object. -/
def Handler.kind : Handler → HandlerKind
  | .last k => k
  | .link k _ => k

/-- The `_next_handler` field of a handler object. -/
def Handler.nextHandler : Handler → Option Handler
  | .last _ => none
  | .link _ nx => some nx

/-- Embeds `AbstractHandler.set_next`: it stores the argument as `self`'s
`_next_handler` (overwriting whatever was there) and returns the
argument.  The first component is `self`'s state after the assignment,
the second is the method's return value. -/
def setNext (self succ : Handler) : Handler × Handler :=
  (.link self.kind succ, succ)

/-- Embeds `handle` of a concrete handler, with the inherited
`AbstractHandler.handle` fallback inlined: on `request == trigger`
return the acknowledgment at once; otherwise, if `_next_handler` is set,
return exactly its `handle` result, else return `None`. -/
def handle : Handler → PyVal → Option String
  | .last k, req =>
      if req = .str (trigger k) then some (ackString k req) else none
  | .link k nx, req =>
      if req = .str (trigger k) then some (ackString k req)
      else handle nx req

/-- Variant of `handle`, instrumented with the evaluation trace: the list of
(handler object, request value it received) pairs, in the order the
`handle` calls are made.  The second component is the return value. -/
def handleTrace : Handler → PyVal → List (Handler × PyVal) × Option String
  | .last k, req =>
      ([(.last k, req)],
       if req = .str (trigger k) then some (ackString k req) else none)
  | .link k nx, req =>
      if req = .str (trigger k) then ([(.link k nx, req)], some (ackString k req))
      else
        let r := handleTrace nx req
        ((.link k nx, req) :: r.1, r.2)

/-- Variant of `handle`, threading each handler object's state explicitly: the
first component is the entry handler's state after the call.  The
method bodies contain no assignment, so the translation rebuilds each
node from the fields it read and the successor state it got back. -/
def handleSt : Handler → PyVal → Handler × Option String
  | .last k, req =>
      (.last k, if req = .str (trigger k) then some (ackString k req) else none)
  | .link k nx, req =>
      if req = .str (trigger k) then (.link k nx, some (ackString k req))
      else
        let r := handleSt nx req
        (.link k r.1, r.2)

/-- The kinds of the handlers along a chain, entry point first. -/
def kinds : Handler → List HandlerKind
  | .last k => [k]
  | .link k nx => k :: kinds nx

/-- The number of handlers reachable from (and including) this one. -/
def chainLength : Handler → Nat
  | .last _ => 1
  | .link _ nx => 1 + chainLength nx

/-- Builds the chain with head kind `k` followed by kinds `ks`. -/
def fromList : HandlerKind → List HandlerKind → Handler
  | k, [] => .last k
  | k, k' :: ks => .link k (fromList k' ks)

/-- Follows `_next_handler` links `i` times: the interior node at
position `i`, or `none` when the chain is shorter. -/
def nodeAt : Handler → Nat → Option Handler
  | h, 0 => some h
  | .last _, _ + 1 => none
  | .link _ nx, n + 1 => nodeAt nx n

/-- The demo's chain `monkey.set_next(squirrel).set_next(dog)`:
Monkey > Squirrel > Dog. -/
def refChain : Handler :=
  .link .monkey (.link .squirrel (.last .dog))

/-- The sub-chain entered at `squirrel` in the demo
(`client_code(squirrel)`): Squirrel > Dog. -/
def refSub : Handler :=
  .link .squirrel (.last .dog)

/-- Builds a chain from a list of kinds; `none` on the empty list. -/
def chainOf : List HandlerKind → Option Handler
  | [] => none
  | k :: ks => some (fromList k ks)

/-- Tests whether a Python value is a string (`isinstance(v, str)`). -/
def PyVal.isStr : PyVal → Bool
  | .str _ => true
  | _ => false

example : handle refChain (.str "Nut") = some "Squirrel: I'll eat the Nut" := by decide
example : handle refChain (.str "Banana") = some "Monkey: I'll eat the Banana" := by decide
example : handle refChain (.str "Cup of coffee") = none := by decide
example : handle refSub (.str "Banana") = none := by decide
example : handle refChain .pyNone = none := by decide

/-- Helper: the instrumented dispatch returns the same value as `handle`. -/
lemma handleTrace_snd (h : Handler) (req : PyVal) :
    (handleTrace h req).2 = handle h req := by
  induction h with
  | last k => simp [handleTrace, handle]
  | link k nx ih =>
      by_cases hm : req = PyVal.str (trigger k)
      · simp [handleTrace, handle, hm]
      · simp [handleTrace, handle, hm, ih]

/-- Helper: the state-threading dispatch leaves the handler state unchanged. -/
lemma handleSt_fst (h : Handler) (req : PyVal) :
    (handleSt h req).1 = h := by
  induction h with
  | last k => simp [handleSt]
  | link k nx ih =>
      by_cases hm : req = PyVal.str (trigger k)
      · simp [handleSt, hm]
      · simp [handleSt, hm, ih]

/-- Helper: the state-threading dispatch returns the same value as `handle`. -/
lemma handleSt_snd (h : Handler) (req : PyVal) :
    (handleSt h req).2 = handle h req := by
  induction h with
  | last k => simp [handleSt, handle]
  | link k nx ih =>
      by_cases hm : req = PyVal.str (trigger k)
      · simp [handleSt, handle, hm]
      · simp [handleSt, handle, hm, ih]

/-- C1: for every chain and every request equal to the trigger of the
handler at position `i`, with no earlier handler in link order claiming
the same value, dispatch from the chain head returns that handler's
acknowledgment (first-linked handler wins). -/
theorem chain_first_match (h : Handler) (s : String) (i : Nat)
    (hi : i < (kinds h).length)
    (hmatch : trigger ((kinds h).get ⟨i, hi⟩) = s)
    (hfirst : ∀ j (hj : j < (kinds h).length), j < i →
      trigger ((kinds h).get ⟨j, hj⟩) ≠ s) :
    handle h (.str s) = some (ackString ((kinds h).get ⟨i, hi⟩) (.str s)) := by
  induction h generalizing i with
  | last k =>
      have hi0 : i = 0 := by simpa [kinds] using hi
      subst hi0
      simp only [kinds, List.get] at hmatch ⊢
      subst hmatch
      simp [handle]
  | link k nx ih =>
      cases i with
      | zero =>
          simp only [kinds, List.get] at hmatch ⊢
          subst hmatch
          simp [handle]
      | succ n =>
          have hk : trigger k ≠ s := by
            have := hfirst 0 (by simp [kinds]) (Nat.succ_pos n)
            simpa [kinds, List.get] using this
          have hne : PyVal.str s ≠ PyVal.str (trigger k) := by
            intro hcon
            exact hk (by injection hcon with h1; exact h1.symm)
          have hi' : n < (kinds nx).length := by
            simpa [kinds, Nat.succ_lt_succ_iff] using hi
          have hmatch' : trigger ((kinds nx).get ⟨n, hi'⟩) = s := by
            simpa [kinds, List.get] using hmatch
          have hfirst' : ∀ j (hj : j < (kinds nx).length), j < n →
              trigger ((kinds nx).get ⟨j, hj⟩) ≠ s := by
            intro j hj hjn
            have := hfirst (j + 1) (by simp [kinds]; omega) (by omega)
            simpa [kinds, List.get] using this
          have := ih n hi' hmatch' hfirst'
          simp only [kinds, List.get]
          simp [handle, hne, this]

/-- Witness for C1 at the reference chain with request "Nut" (index 1). -/
theorem chain_first_match_witness :
    trigger ((kinds refChain).get ⟨1, by decide⟩) = "Nut" ∧
    handle refChain (.str "Nut") =
      some (ackString ((kinds refChain).get ⟨1, by decide⟩) (.str "Nut")) := by
  refine ⟨by decide, chain_first_match refChain "Nut" 1 (by decide) (by decide) ?_⟩
  intro j hj hj1
  have hj0 : j = 0 := by omega
  subst hj0
  have hget : (kinds refChain).get ⟨0, hj⟩ = HandlerKind.monkey := rfl
  rw [hget]
  decide

/-- C2: a request matching no handler's trigger (exact, case-sensitive
string equality) dispatches to the absent result; `handle` is total, so
no exception is possible. -/
theorem unmatched_returns_none (h : Handler) (s : String)
    (hno : ∀ k ∈ kinds h, trigger k ≠ s) :
    handle h (.str s) = none := by
  induction h with
  | last k =>
      have hk : trigger k ≠ s := hno k (by simp [kinds])
      have hne : PyVal.str s ≠ PyVal.str (trigger k) := by
        intro hcon
        exact hk (by injection hcon with h1; exact h1.symm)
      simp [handle, hne]
  | link k nx ih =>
      have hk : trigger k ≠ s := hno k (by simp [kinds])
      have hne : PyVal.str s ≠ PyVal.str (trigger k) := by
        intro hcon
        exact hk (by injection hcon with h1; exact h1.symm)
      have ih' := ih (fun k' hk' => hno k' (by simp [kinds]; exact Or.inr hk'))
      simp [handle, hne, ih']

/-- Witness for C2 at the reference chain with request "Cup of coffee". -/
theorem unmatched_returns_none_witness :
    (∀ k ∈ kinds refChain, trigger k ≠ "Cup of coffee") ∧
    handle refChain (.str "Cup of coffee") = none :=
  ⟨by decide, unmatched_returns_none refChain "Cup of coffee" (by decide)⟩

/-- C3: a handler whose trigger does not match the request delegates in
full to its successor when it has one (the results are exactly equal),
and returns the absent result when it has none. -/
theorem no_match_delegates (k : HandlerKind) (req : PyVal)
    (hne : req ≠ .str (trigger k)) :
    (∀ nx : Handler, handle (.link k nx) req = handle nx req) ∧
    handle (.last k) req = none := by
  constructor
  · intro nx
    simp [handle, hne]
  · simp [handle, hne]

/-- Witness for C3 with the Monkey handler and request "Nut". -/
theorem no_match_delegates_witness :
    PyVal.str "Nut" ≠ PyVal.str (trigger .monkey) ∧
    handle (.link .monkey (.last .squirrel)) (.str "Nut") =
      handle (.last .squirrel) (.str "Nut") :=
  ⟨by decide,
   (no_match_delegates .monkey (.str "Nut") (by decide)).1 (.last .squirrel)⟩

/-- C4: a handler whose trigger equals the request returns its own
acknowledgment immediately, whatever its successor is, and the trace
shows the successor's `handle` is never invoked; in particular in the
reference chain Monkey > Squirrel > Dog, dispatching "Banana" to the
head evaluates only the Monkey handler. -/
theorem match_immediate (k : HandlerKind) (req : PyVal)
    (hm : req = .str (trigger k)) :
    (∀ nx : Handler,
        handle (.link k nx) req = some (ackString k req) ∧
        handleTrace (.link k nx) req = ([(.link k nx, req)], some (ackString k req))) ∧
    handle (.last k) req = some (ackString k req) ∧
    (handleTrace refChain (.str "Banana")).1.map (fun e => Handler.kind e.1) =
      [HandlerKind.monkey] ∧
    handle refChain (.str "Banana") = some (ackString .monkey (.str "Banana")) := by
  subst hm
  refine ⟨fun nx => ⟨?_, ?_⟩, ?_, ?_, ?_⟩
  · simp [handle]
  · simp [handleTrace]
  · simp [handle]
  · decide
  · decide

/-- Witness for C4 with the Monkey handler, request "Banana". -/
theorem match_immediate_witness :
    PyVal.str "Banana" = PyVal.str (trigger .monkey) ∧
    handle (.link .monkey refSub) (.str "Banana") =
      some (ackString .monkey (.str "Banana")) :=
  ⟨by decide,
   ((match_immediate .monkey (.str "Banana") (by decide)).1 refSub).1⟩

/-- Helper: in a chain built from `p :: (ps ++ k :: suf)`, following
`_next_handler` links `ps.length + 1` times reaches exactly the chain
built from `k :: suf`. -/
lemma nodeAt_fromList_append (ps : List HandlerKind) (p k : HandlerKind)
    (suf : List HandlerKind) :
    nodeAt (fromList p (ps ++ k :: suf)) (ps.length + 1) = some (fromList k suf) := by
  induction ps generalizing p with
  | nil => simp [fromList, nodeAt]
  | cons q qs ih =>
      simpa [fromList, nodeAt] using ih q

/-- C5: dispatching at the interior node after a prefix of `pre` handlers
yields the node built from the suffix alone, so its result is a function
of that node and its successors only; handlers linked before it are never
consulted.  Concretely, "Banana" dispatched at Squirrel (sub-chain
Squirrel > Dog) is unhandled although Monkey in the full chain matches it. -/
theorem subchain_ignores_earlier (pre : List HandlerKind) (k : HandlerKind)
    (suf : List HandlerKind) (req : PyVal) :
    (chainOf (pre ++ k :: suf)).bind (fun c => nodeAt c pre.length) =
      some (fromList k suf) ∧
    ((chainOf (pre ++ k :: suf)).bind (fun c => nodeAt c pre.length)).map
        (fun n => handle n req) = some (handle (fromList k suf) req) ∧
    nodeAt refChain 1 = some refSub ∧
    handle refSub (.str "Banana") = none ∧
    handle refChain (.str "Banana") = some (ackString .monkey (.str "Banana")) := by
  have hnode : (chainOf (pre ++ k :: suf)).bind (fun c => nodeAt c pre.length) =
      some (fromList k suf) := by
    cases pre with
    | nil => simp [chainOf, nodeAt]
    | cons p ps =>
        simpa [chainOf, Option.bind] using nodeAt_fromList_append ps p k suf
  refine ⟨hnode, ?_, by decide, by decide, by decide⟩
  rw [hnode]
  rfl

/-- C6: `set_next` returns the successor passed in, a second `set_next`
call overwrites the stored successor (last write wins) — the resulting
state mentions only the new successor, independently of the discarded
one — and every subsequent dispatch delegates only to the new successor. -/
theorem setNext_last_write_wins (self h1 h2 : Handler) (req : PyVal) :
    (setNext self h1).2 = h1 ∧
    (setNext (setNext self h1).1 h2).1 = .link self.kind h2 ∧
    (∀ h1' : Handler,
      (setNext (setNext self h1).1 h2).1 = (setNext (setNext self h1').1 h2).1) ∧
    handle (setNext (setNext self h1).1 h2).1 req = handle (.link self.kind h2) req := by
  refine ⟨rfl, ?_, fun h1' => ?_, ?_⟩
  · simp [setNext, Handler.kind]
  · simp [setNext, Handler.kind]
  · simp [setNext, Handler.kind]

/-- C7: `handle` has no side effect beyond its return value: threading
the handler states through the call leaves the entry handler's state —
every successor link and every trigger configuration along the chain —
unchanged, and the request is passed untransformed to every handler
consulted. -/
theorem handle_no_side_effects (h : Handler) (req : PyVal) :
    handleSt h req = (h, handle h req) ∧
    ∀ e ∈ (handleTrace h req).1, e.2 = req := by
  constructor
  · exact Prod.ext (handleSt_fst h req) (handleSt_snd h req)
  · induction h with
    | last k =>
        intro e he
        simp [handleTrace] at he
        rw [he]
    | link k nx ih =>
        intro e he
        by_cases hm : req = PyVal.str (trigger k)
        · simp [handleTrace, hm] at he
          rw [he, hm]
        · simp only [handleTrace, if_neg hm, List.mem_cons] at he
          rcases he with he | he
          · rw [he]
          · exact ih e he

/-- C8: dispatch is deterministic: a second `handle` call with the same
request against the state left by the first call produces the same state
and the same result. -/
theorem dispatch_deterministic (h : Handler) (req : PyVal) :
    handleSt (handleSt h req).1 req = handleSt h req ∧
    (handleSt h req).2 = handle h req := by
  rw [handleSt_fst]
  exact ⟨rfl, handleSt_snd h req⟩

/-- C9: dispatch terminates: the chain of `handle` calls is non-empty,
its depth is at most the chain length, and it reaches a handler that
either matches the request or has no successor. -/
theorem dispatch_terminates (h : Handler) (req : PyVal) :
    1 ≤ (handleTrace h req).1.length ∧
    (handleTrace h req).1.length ≤ chainLength h ∧
    ∃ e ∈ (handleTrace h req).1,
      (req = .str (trigger (Handler.kind e.1)) ∨ Handler.nextHandler e.1 = none) := by
  induction h with
  | last k =>
      refine ⟨by simp [handleTrace], by simp [handleTrace, chainLength], ?_⟩
      exact ⟨(.last k, req), by simp [handleTrace], Or.inr rfl⟩
  | link k nx ih =>
      by_cases hm : req = PyVal.str (trigger k)
      · refine ⟨by simp [handleTrace, hm], by simp [handleTrace, hm, chainLength], ?_⟩
        exact ⟨(.link k nx, req), by simp [handleTrace, hm],
               Or.inl (by simpa [Handler.kind] using hm)⟩
      · obtain ⟨h1, h2, e, he, hp⟩ := ih
        refine ⟨by simp [handleTrace, hm], ?_, ⟨e, ?_, hp⟩⟩
        · have : (handleTrace (.link k nx) req).1.length =
              (handleTrace nx req).1.length + 1 := by simp [handleTrace, hm]
          rw [this]
          simp only [chainLength]
          omega
        · simp [handleTrace, hm]
          exact Or.inr he

/-- C10: a non-string request (for instance `None`) through any chain of
the three concrete handlers is never equal to a string trigger, so
dispatch runs the whole chain without raising and returns the absent
result. -/
theorem non_string_request_unhandled (h : Handler) (v : PyVal)
    (hv : v.isStr = false) :
    handle h v = none := by
  have hne : ∀ t : String, v ≠ .str t := by
    intro t hcon
    subst hcon
    simp [PyVal.isStr] at hv
  induction h with
  | last k => simp [handle, hne]
  | link k nx ih => simp [handle, hne, ih]

/-- Witness for C10: dispatching Python `None` through the reference
chain returns the absent result. -/
theorem non_string_request_unhandled_witness :
    PyVal.isStr .pyNone = false ∧ handle refChain .pyNone = none :=
  ⟨rfl, non_string_request_unhandled refChain .pyNone rfl⟩
